import Mathlib

/-!
Verification of the mockspec parser (src/parser.go, package msparser).

The parser consumes a YAML document already decoded into a generic tree
(maps, sequences, scalars) and produces a typed Spec.  We embed the decoded
tree as the inductive `Value`; a Go `map[string]any` is represented by its
association list of entries, whose order stands for Go map iteration order
(Go map keys are unique, and iteration order is unspecified, which we model
by quantifying over permutations of the association list where relevant).

Go functions returning `(T, error)` become `Except PErr T`.  The one place
the Go code can panic (an unchecked type assertion `headerValue.(string)` in
createResponse) is modelled by the distinguished error constructor
`PErr.panicked`, which is never produced by any ordinary error return.
-/

namespace MSParser

/-- Generic decoded document tree: mapping (association list of entries in
iteration order), sequence, string, integer, and opaque scalars (null /
bool stand in for all other YAML scalars). -/
inductive Value where
  | vnull : Value
  | vbool : Bool → Value
  | vstr : String → Value
  | vint : Int → Value
  | varr : List Value → Value
  | vmap : List (String × Value) → Value
deriving Repr

/-- Errors of the parser.  `invalidInput r` embeds errInvalidInputReason(r),
`objectMustHaveSingleKey` embeds errObjectMustHaveSingleKey,
`unknownDefinition group ref` embeds errUnknownDefinitionWithName(group, ref).
`panicked` marks a Go runtime panic (unchecked type assertion), which in Go
is not an error return at all; it is kept distinct from every returned error. -/
inductive PErr where
  | invalidInput : String → PErr
  | objectMustHaveSingleKey : PErr
  | unknownDefinition : String → String → PErr
  | panicked : String → PErr
deriving Repr, DecidableEq

/-- Step: one operation (struct Step in the Go source). -/
structure Step where
  Operation : String
  Parameters : List (String × Value)
deriving Repr

/-- Check: a single named predicate (struct Check in the Go source). -/
structure Check where
  Name : String
  Parameters : List (String × Value)
deriving Repr

/-- Filter: a parameter transformation (struct Filter in the Go source). -/
structure Filter where
  Source : String
  Target : String
  Steps : List Step
deriving Repr

/-- Condition (struct Condition in the Go source): the Go struct has the four
fields Any, All, Source, Checks; being self-nested it is an inductive here. -/
inductive Condition where
  | mk : List Condition → List Condition → String → List Check → Condition
deriving Repr

/-- Response (struct Response in the Go source). -/
structure Response where
  Status : Int
  Format : String
  Headers : List (String × List String)
  Body : String
deriving Repr

/-- Endpoint (struct Endpoint in the Go source); self-nested via Endpoints. -/
inductive Endpoint where
  | mk : String → String → String → String → String →
      List Filter → List Condition → List Endpoint → Option Response → Endpoint
deriving Repr

def Condition.Any : Condition → List Condition
  | .mk a _ _ _ => a

def Condition.All : Condition → List Condition
  | .mk _ a _ _ => a

def Condition.Source : Condition → String
  | .mk _ _ s _ => s

def Condition.Checks : Condition → List Check
  | .mk _ _ _ c => c

def Endpoint.Description : Endpoint → String
  | .mk d _ _ _ _ _ _ _ _ => d

def Endpoint.Host : Endpoint → String
  | .mk _ h _ _ _ _ _ _ _ => h

def Endpoint.Method : Endpoint → String
  | .mk _ _ m _ _ _ _ _ _ => m

def Endpoint.Path : Endpoint → String
  | .mk _ _ _ p _ _ _ _ _ => p

def Endpoint.BodyFormat : Endpoint → String
  | .mk _ _ _ _ b _ _ _ _ => b

def Endpoint.Filters : Endpoint → List Filter
  | .mk _ _ _ _ _ f _ _ _ => f

def Endpoint.Conditions : Endpoint → List Condition
  | .mk _ _ _ _ _ _ c _ _ => c

def Endpoint.Endpoints : Endpoint → List Endpoint
  | .mk _ _ _ _ _ _ _ e _ => e

def Endpoint.Response : Endpoint → Option Response
  | .mk _ _ _ _ _ _ _ _ r => r

/-- Definitions registry (struct Definitions in the Go source); each Go map
is an association list whose entries are inserted by consing to the front,
so lookup (first match) realizes Go map lookup with unique keys. -/
structure Definitions where
  Steps : List (String × List Step)
  Filters : List (String × List Filter)
  Conditions : List (String × List Condition)
  Responses : List (String × Response)
deriving Repr

/-- Spec root (struct Spec in the Go source; the field named Definitions in
Go is called Defs here to avoid shadowing the type name). -/
structure Spec where
  Defs : Definitions
  Endpoints : List Endpoint
deriving Repr

/-- createEmpty from the Go source: the empty registry. -/
def emptyDefinitions : Definitions :=
  { Steps := [], Filters := [], Conditions := [], Responses := [] }

/-- Association-list lookup, first match wins (Go map lookup; keys unique). -/
def lookupA {α : Type} : List (String × α) → String → Option α
  | [], _ => none
  | (k, v) :: rest, name => if k = name then some v else lookupA rest name

/-- Lookup of a field in a decoded mapping node. -/
def lookupVal : List (String × Value) → String → Option Value
  | [], _ => none
  | (k, v) :: rest, name => if k = name then some v else lookupVal rest name

/-- extractString from the Go source: absent is not an error, present
non-string is. -/
def extractString (input : List (String × Value)) (name : String) :
    Except PErr (Option String) :=
  match lookupVal input name with
  | none => .ok none
  | some (.vstr s) => .ok (some s)
  | some _ => .error (.invalidInput ("expected " ++ name ++ " to be a string"))

/-- extractInt from the Go source. -/
def extractInt (input : List (String × Value)) (name : String) :
    Except PErr (Option Int) :=
  match lookupVal input name with
  | none => .ok none
  | some (.vint i) => .ok (some i)
  | some _ => .error (.invalidInput ("expect " ++ name ++ " to be an integer"))

/-- fillString from the Go source: `current` is the value the target already
holds (absence keeps it). -/
def fillStringD (input : List (String × Value)) (name : String)
    (current : String) : Except PErr String :=
  match extractString input name with
  | .error e => .error e
  | .ok none => .ok current
  | .ok (some s) => .ok s

/-- fillInt from the Go source. -/
def fillIntD (input : List (String × Value)) (name : String)
    (current : Int) : Except PErr Int :=
  match extractInt input name with
  | .error e => .error e
  | .ok none => .ok current
  | .ok (some i) => .ok i

/-- extractStringMap from the Go source: absent gives nil (none), present
non-mapping errors. -/
def extractStringMap (input : List (String × Value)) (name : String) :
    Except PErr (Option (List (String × Value))) :=
  match lookupVal input name with
  | none => .ok none
  | some (.vmap m) => .ok (some m)
  | some _ => .error (.invalidInput ("expected " ++ name ++ " to be an object"))

/-- extractSliceOfAny from the Go source: absent gives nil (none); a present
empty sequence gives some [] (a non-nil empty Go slice), which the callers
distinguish from absence. -/
def extractSliceOfAny (input : List (String × Value)) (name : String) :
    Except PErr (Option (List Value)) :=
  match lookupVal input name with
  | none => .ok none
  | some (.varr l) => .ok (some l)
  | some _ => .error (.invalidInput ("expected " ++ name ++ " to be an array"))

/-- Parameter normalization shared by Step and Check building: a mapping is
used directly, any other value is wrapped as a single-entry value mapping. -/
def normParams : Value → List (String × Value)
  | .vmap m => m
  | v => [("value", v)]

/-- getStepsByReference from the Go source. -/
def getStepsByReference (defs : Definitions) (refName : String) :
    Except PErr (List Step) :=
  match lookupA defs.Steps refName with
  | some steps => .ok steps
  | none => .error (.unknownDefinition "steps" refName)

/-- getFiltersByReference from the Go source. -/
def getFiltersByReference (defs : Definitions) (refName : String) :
    Except PErr (List Filter) :=
  match lookupA defs.Filters refName with
  | some filters => .ok filters
  | none => .error (.unknownDefinition "filters" refName)

/-- getConditionsByReference from the Go source. -/
def getConditionsByReference (defs : Definitions) (refName : String) :
    Except PErr (List Condition) :=
  match lookupA defs.Conditions refName with
  | some conditions => .ok conditions
  | none => .error (.unknownDefinition "conditions" refName)

/-- getResponseByReference from the Go source. -/
def getResponseByReference (defs : Definitions) (refName : String) :
    Except PErr Response :=
  match lookupA defs.Responses refName with
  | some response => .ok response
  | none => .error (.unknownDefinition "responses" refName)

/-- createSteps from the Go source: reject mappings with more than one key,
resolve a $ref via the registry, otherwise each entry becomes a Step with
normalized parameters (an empty mapping yields zero steps). -/
def createSteps (defs : Definitions) (rStepItem : List (String × Value)) :
    Except PErr (List Step) :=
  if rStepItem.length > 1 then .error .objectMustHaveSingleKey
  else
    match extractString rStepItem "$ref" with
    | .error e => .error e
    | .ok (some refName) => getStepsByReference defs refName
    | .ok none =>
        .ok (rStepItem.map fun p => { Operation := p.1, Parameters := normParams p.2 })

/-- createChecks from the Go source: each item must be a mapping with exactly
one key; the key names the check, its value is normalized as parameters. -/
def createChecks : List Value → Except PErr (List Check)
  | [] => .ok []
  | .vmap rCheckMap :: rest =>
      if rCheckMap.length ≠ 1 then .error .objectMustHaveSingleKey
      else
        match createChecks rest with
        | .error e => .error e
        | .ok more =>
            .ok ((rCheckMap.map fun p => { Name := p.1, Parameters := normParams p.2 }) ++ more)
  | _ :: _ => .error (.invalidInput "each check item must be an object")

/-- The steps loop inside createFilters: each raw step must be a mapping and
is built through createSteps, flattening into a single ordered list. -/
def filterStepsLoop (defs : Definitions) : List Value → Except PErr (List Step)
  | [] => .ok []
  | .vmap rStepMap :: rest =>
      match createSteps defs rStepMap with
      | .error e => .error e
      | .ok steps =>
          match filterStepsLoop defs rest with
          | .error e => .error e
          | .ok more => .ok (steps ++ more)
  | _ :: _ => .error (.invalidInput "each step item must be an object")

/-- createFilters from the Go source.  fillStrings iterates a Go map of two
targets in unspecified order; since at most one error can be user-visible per
claim we fix the order source then target. -/
def createFilters (defs : Definitions) (rFilterItem : List (String × Value)) :
    Except PErr (List Filter) :=
  match extractString rFilterItem "$ref" with
  | .error e => .error e
  | .ok (some refName) => getFiltersByReference defs refName
  | .ok none =>
      match fillStringD rFilterItem "source" "" with
      | .error e => .error e
      | .ok source =>
          match fillStringD rFilterItem "target" "" with
          | .error e => .error e
          | .ok target =>
              if source = "" then .error (.invalidInput "filter must have a source")
              else
                match extractSliceOfAny rFilterItem "steps" with
                | .error e => .error e
                | .ok none => .ok [{ Source := source, Target := target, Steps := [] }]
                | .ok (some rSteps) =>
                    match filterStepsLoop defs rSteps with
                    | .error e => .error e
                    | .ok steps => .ok [{ Source := source, Target := target, Steps := steps }]

/-- The iteration inside fillStepsItems: each raw item must be a mapping,
built via createSteps and appended in order. -/
def stepItemsLoop (defs : Definitions) : List Value → Except PErr (List Step)
  | [] => .ok []
  | .vmap m :: rest =>
      match createSteps defs m with
      | .error e => .error e
      | .ok steps =>
          match stepItemsLoop defs rest with
          | .error e => .error e
          | .ok more => .ok (steps ++ more)
  | _ :: _ => .error (.invalidInput "each step item must be an object")

/-- fillStepsItems from the Go source: an empty item list is rejected. -/
def fillStepsItems (defs : Definitions) (rStepItems : List Value) :
    Except PErr (List Step) :=
  if rStepItems.length = 0 then
    .error (.invalidInput "each step must have at least one item")
  else stepItemsLoop defs rStepItems

/-- The iteration inside fillFiltersItems. -/
def filterItemsLoop (defs : Definitions) : List Value → Except PErr (List Filter)
  | [] => .ok []
  | .vmap m :: rest =>
      match createFilters defs m with
      | .error e => .error e
      | .ok filters =>
          match filterItemsLoop defs rest with
          | .error e => .error e
          | .ok more => .ok (filters ++ more)
  | _ :: _ => .error (.invalidInput "each filter item must be an object")

/-- fillFiltersItems from the Go source: an empty item list is rejected. -/
def fillFiltersItems (defs : Definitions) (rFilterItems : List Value) :
    Except PErr (List Filter) :=
  if rFilterItems.length = 0 then
    .error (.invalidInput "each filter must have at least one item")
  else filterItemsLoop defs rFilterItems

/-- A value found by field lookup is smaller than the mapping holding it. -/
theorem sizeOf_lookupVal {input : List (String × Value)} {name : String}
    {v : Value} (h : lookupVal input name = some v) : sizeOf v < sizeOf input := by
  induction input with
  | nil => simp [lookupVal] at h
  | cons p rest ih =>
      obtain ⟨k, w⟩ := p
      by_cases hk : k = name
      · simp [lookupVal, hk] at h
        subst h
        simp
        omega
      · simp [lookupVal, hk] at h
        have := ih h
        simp
        omega

/-- A sequence extracted from a field is smaller than the mapping holding it. -/
theorem sizeOf_extractSliceOfAny {input : List (String × Value)} {name : String}
    {l : List Value} (h : extractSliceOfAny input name = .ok (some l)) :
    sizeOf l < sizeOf input := by
  unfold extractSliceOfAny at h
  cases hl : lookupVal input name with
  | none => rw [hl] at h; simp at h
  | some v =>
      rw [hl] at h
      cases v with
      | varr items =>
          simp at h
          subst h
          have := sizeOf_lookupVal hl
          simp at this
          omega
      | vnull => simp at h
      | vbool b => simp at h
      | vstr s => simp at h
      | vint i => simp at h
      | vmap m => simp at h

mutual

/-- createConditions from the Go source: shape precedence is $ref, then any,
then all, then source plus checks; first matching field wins. -/
def createConditions (defs : Definitions) (rConditionItem : List (String × Value)) :
    Except PErr (List Condition) :=
  match extractString rConditionItem "$ref" with
  | .error e => .error e
  | .ok (some refName) => getConditionsByReference defs refName
  | .ok none =>
      match hany : extractSliceOfAny rConditionItem "any" with
      | .error e => .error e
      | .ok (some sliceAny) =>
          match fillConditionsItems defs sliceAny with
          | .error e => .error e
          | .ok cs => .ok [Condition.mk cs [] "" []]
      | .ok none =>
          match hall : extractSliceOfAny rConditionItem "all" with
          | .error e => .error e
          | .ok (some sliceAll) =>
              match fillConditionsItems defs sliceAll with
              | .error e => .error e
              | .ok cs => .ok [Condition.mk [] cs "" []]
          | .ok none =>
              match fillStringD rConditionItem "source" "" with
              | .error e => .error e
              | .ok source =>
                  if source = "" then
                    .error (.invalidInput "condition must have a source")
                  else
                    match extractSliceOfAny rConditionItem "checks" with
                    | .error e => .error e
                    | .ok none => .error (.invalidInput "checks must be an array")
                    | .ok (some rChecks) =>
                        match createChecks rChecks with
                        | .error e => .error e
                        | .ok checks => .ok [Condition.mk [] [] source checks]
termination_by (sizeOf rConditionItem, 0)
decreasing_by
  all_goals first
    | exact Prod.Lex.left _ _ (sizeOf_extractSliceOfAny hany)
    | exact Prod.Lex.left _ _ (sizeOf_extractSliceOfAny hall)

/-- fillConditionsItems from the Go source: an empty item list is rejected. -/
def fillConditionsItems (defs : Definitions) (rConditionItems : List Value) :
    Except PErr (List Condition) :=
  if rConditionItems.length = 0 then
    .error (.invalidInput "each condition must have at least one item")
  else conditionItemsLoop defs rConditionItems
termination_by (sizeOf rConditionItems, 2)
decreasing_by
  exact Prod.Lex.right _ (by omega)

/-- The iteration inside fillConditionsItems. -/
def conditionItemsLoop (defs : Definitions) : List Value → Except PErr (List Condition)
  | [] => .ok []
  | .vmap m :: rest =>
      match createConditions defs m with
      | .error e => .error e
      | .ok conditions =>
          match conditionItemsLoop defs rest with
          | .error e => .error e
          | .ok more => .ok (conditions ++ more)
  | _ :: _ => .error (.invalidInput "each condition item must be an object")
termination_by l => (sizeOf l, 1)
decreasing_by
  all_goals (apply Prod.Lex.left; simp; try omega)

end

/-- The inner values loop of the headers block in createResponse: Go runs
`headerValue.(string)` with no ok-check, so a non-string element is a runtime
panic, modelled as the distinguished `PErr.panicked` outcome. -/
def headerValuesLoop : List Value → Except PErr (List String)
  | [] => .ok []
  | .vstr s :: rest =>
      match headerValuesLoop rest with
      | .error e => .error e
      | .ok more => .ok (s :: more)
  | _ :: _ => .error (.panicked "interface conversion: interface is not string")

/-- The headers loop of createResponse: each header value must be a sequence,
whose elements are converted by the unchecked string assertion. -/
def headersLoop : List (String × Value) → Except PErr (List (String × List String))
  | [] => .ok []
  | (headerName, headerValues) :: rest =>
      match headerValues with
      | .varr vs =>
          match headerValuesLoop vs with
          | .error e => .error e
          | .ok strs =>
              match headersLoop rest with
              | .error e => .error e
              | .ok more => .ok ((headerName, strs) :: more)
      | _ => .error (.invalidInput "each header values must be an array of strings")

/-- createResponse from the Go source.  Note: the Go code builds the local
`headers` map but never assigns it to `response.Headers`, so the returned
Response always carries its zero-value Headers; the loop still runs for its
errors and panics, and its result is discarded, exactly as in the source. -/
def createResponse (rResponse : List (String × Value)) (defs : Definitions) :
    Except PErr Response :=
  match extractString rResponse "$ref" with
  | .error e => .error e
  | .ok (some refName) => getResponseByReference defs refName
  | .ok none =>
      match fillStringD rResponse "format" "" with
      | .error e => .error e
      | .ok format =>
          match fillStringD rResponse "body" "" with
          | .error e => .error e
          | .ok body =>
              match fillIntD rResponse "status" 0 with
              | .error e => .error e
              | .ok status =>
                  match extractStringMap rResponse "headers" with
                  | .error e => .error e
                  | .ok none =>
                      .ok { Status := status, Format := format, Headers := [], Body := body }
                  | .ok (some rHeaders) =>
                      match headersLoop rHeaders with
                      | .error e => .error e
                      | .ok _ =>
                          .ok { Status := status, Format := format, Headers := [], Body := body }

/-- fillResponseItem from the Go source. -/
def fillResponseItem (rResponse : List (String × Value)) (defs : Definitions) :
    Except PErr Response :=
  createResponse rResponse defs

/-- The five plain string fields read at the start of createEndpoint
(fillStrings over a Go map of five targets, here in the listed order). -/
def endpointStringFields (rEndpoint : List (String × Value)) :
    Except PErr (String × String × String × String × String) :=
  match fillStringD rEndpoint "description" "" with
  | .error e => .error e
  | .ok description =>
      match fillStringD rEndpoint "host" "" with
      | .error e => .error e
      | .ok host =>
          match fillStringD rEndpoint "method" "" with
          | .error e => .error e
          | .ok method =>
              match fillStringD rEndpoint "path" "" with
              | .error e => .error e
              | .ok path =>
                  match fillStringD rEndpoint "bodyFormat" "" with
                  | .error e => .error e
                  | .ok bodyFormat => .ok (description, host, method, path, bodyFormat)

/-- The filters stage of createEndpoint: absence yields no filters; a present
sequence goes through fillFiltersItems (which rejects an empty sequence). -/
def endpointFiltersStage (defs : Definitions) (rEndpoint : List (String × Value)) :
    Except PErr (List Filter) :=
  match extractSliceOfAny rEndpoint "filters" with
  | .error e => .error e
  | .ok none => .ok []
  | .ok (some rFilterItems) => fillFiltersItems defs rFilterItems

/-- The conditions stage of createEndpoint, same shape as the filters stage. -/
def endpointConditionsStage (defs : Definitions) (rEndpoint : List (String × Value)) :
    Except PErr (List Condition) :=
  match extractSliceOfAny rEndpoint "conditions" with
  | .error e => .error e
  | .ok none => .ok []
  | .ok (some rConditionItems) => fillConditionsItems defs rConditionItems

/-- The response stage of createEndpoint: absence yields none. -/
def endpointResponseStage (defs : Definitions) (rEndpoint : List (String × Value)) :
    Except PErr (Option Response) :=
  match extractStringMap rEndpoint "response" with
  | .error e => .error e
  | .ok none => .ok none
  | .ok (some rResponse) =>
      match fillResponseItem rResponse defs with
      | .error e => .error e
      | .ok response => .ok (some response)

mutual

/-- The body of createEndpoint before its final completeness check: string
fields, filters, conditions, nested endpoints, response, in source order. -/
def createEndpointCore (defs : Definitions) (rEndpoint : List (String × Value)) :
    Except PErr Endpoint :=
  match endpointStringFields rEndpoint with
  | .error e => .error e
  | .ok (description, host, method, path, bodyFormat) =>
      match endpointFiltersStage defs rEndpoint with
      | .error e => .error e
      | .ok filters =>
          match endpointConditionsStage defs rEndpoint with
          | .error e => .error e
          | .ok conditions =>
              match heps : extractSliceOfAny rEndpoint "endpoints" with
              | .error e => .error e
              | .ok none =>
                  match endpointResponseStage defs rEndpoint with
                  | .error e => .error e
                  | .ok response =>
                      .ok (Endpoint.mk description host method path bodyFormat
                        filters conditions [] response)
              | .ok (some rEndpointItems) =>
                  match fillEndpoints defs rEndpointItems with
                  | .error e => .error e
                  | .ok endpoints =>
                      match endpointResponseStage defs rEndpoint with
                      | .error e => .error e
                      | .ok response =>
                          .ok (Endpoint.mk description host method path bodyFormat
                            filters conditions endpoints response)
termination_by (sizeOf rEndpoint, 0)
decreasing_by
  exact Prod.Lex.left _ _ (sizeOf_extractSliceOfAny heps)

/-- createEndpoint from the Go source: build, then reject an endpoint having
neither sub-endpoints nor a response. -/
def createEndpoint (defs : Definitions) (rEndpoint : List (String × Value)) :
    Except PErr Endpoint :=
  match createEndpointCore defs rEndpoint with
  | .error e => .error e
  | .ok endpoint =>
      if endpoint.Endpoints.isEmpty && endpoint.Response.isNone then
        .error (.invalidInput "endpoint must have either sub-endpoints or a response")
      else .ok endpoint
termination_by (sizeOf rEndpoint, 1)
decreasing_by
  exact Prod.Lex.right _ (by omega)

/-- fillEndpoints from the Go source: each raw endpoint must be a mapping;
note there is no emptiness check here, unlike filters and conditions. -/
def fillEndpoints (defs : Definitions) : List Value → Except PErr (List Endpoint)
  | [] => .ok []
  | .vmap m :: rest =>
      match createEndpoint defs m with
      | .error e => .error e
      | .ok endpoint =>
          match fillEndpoints defs rest with
          | .error e => .error e
          | .ok more => .ok (endpoint :: more)
  | _ :: _ => .error (.invalidInput "each endpoint must be an object")
termination_by l => (sizeOf l, 2)
decreasing_by
  all_goals (first
    | exact Prod.Lex.left _ _ (by simp; omega)
    | exact Prod.Lex.left _ _ (by simp))

end

/-- fillStepsMap from the Go source: the input association list is the steps
namespace in Go map iteration order; each entry is built with the registry as
populated so far (the Go code writes through a pointer into the same
Definitions value it reads), and entries are inserted by consing, realizing
Go map insertion with unique keys. -/
def fillStepsMap (defs : Definitions) :
    List (String × Value) → Except PErr Definitions
  | [] => .ok defs
  | (stepName, rStepItems) :: rest =>
      match rStepItems with
      | .varr items =>
          match fillStepsItems defs items with
          | .error e => .error e
          | .ok stepsList =>
              fillStepsMap { defs with Steps := (stepName, stepsList) :: defs.Steps } rest
      | _ =>
          .error (.invalidInput
            ("each step must be an array if step items (" ++ stepName ++ " is not)"))

/-- fillFiltersMap from the Go source. -/
def fillFiltersMap (defs : Definitions) :
    List (String × Value) → Except PErr Definitions
  | [] => .ok defs
  | (filterName, rFilterItems) :: rest =>
      match rFilterItems with
      | .varr items =>
          match fillFiltersItems defs items with
          | .error e => .error e
          | .ok filtersList =>
              fillFiltersMap { defs with Filters := (filterName, filtersList) :: defs.Filters } rest
      | _ =>
          .error (.invalidInput
            ("each filter must be an array of filter items (" ++ filterName ++ " is not)"))

/-- fillConditionsMap from the Go source. -/
def fillConditionsMap (defs : Definitions) :
    List (String × Value) → Except PErr Definitions
  | [] => .ok defs
  | (conditionName, rConditionItems) :: rest =>
      match rConditionItems with
      | .varr items =>
          match fillConditionsItems defs items with
          | .error e => .error e
          | .ok conditionsList =>
              fillConditionsMap
                { defs with Conditions := (conditionName, conditionsList) :: defs.Conditions } rest
      | _ =>
          .error (.invalidInput
            ("each condition must be an array of condition items (" ++ conditionName ++ " is not)"))

/-- fillResponsesMap from the Go source: each named response must be a
mapping and is built through createResponse. -/
def fillResponsesMap (defs : Definitions) :
    List (String × Value) → Except PErr Definitions
  | [] => .ok defs
  | (responseName, rResponse) :: rest =>
      match rResponse with
      | .vmap m =>
          match fillResponseItem m defs with
          | .error e => .error e
          | .ok response =>
              fillResponsesMap { defs with Responses := (responseName, response) :: defs.Responses } rest
      | _ => .error (.invalidInput "each response must be an object")

/-- fillDefinitions from the Go source: the four namespaces are processed in
the fixed order steps, filters, conditions, responses; an absent namespace is
skipped. -/
def fillDefinitions (defs : Definitions) (rDefinitions : List (String × Value)) :
    Except PErr Definitions :=
  match extractStringMap rDefinitions "steps" with
  | .error e => .error e
  | .ok oSteps =>
      match (match oSteps with
             | none => .ok defs
             | some rSteps => fillStepsMap defs rSteps : Except PErr Definitions) with
      | .error e => .error e
      | .ok defs1 =>
          match extractStringMap rDefinitions "filters" with
          | .error e => .error e
          | .ok oFilters =>
              match (match oFilters with
                     | none => .ok defs1
                     | some rFilters => fillFiltersMap defs1 rFilters : Except PErr Definitions) with
              | .error e => .error e
              | .ok defs2 =>
                  match extractStringMap rDefinitions "conditions" with
                  | .error e => .error e
                  | .ok oConditions =>
                      match (match oConditions with
                             | none => .ok defs2
                             | some rConditions =>
                                 fillConditionsMap defs2 rConditions : Except PErr Definitions) with
                      | .error e => .error e
                      | .ok defs3 =>
                          match extractStringMap rDefinitions "responses" with
                          | .error e => .error e
                          | .ok oResponses =>
                              match oResponses with
                              | none => .ok defs3
                              | some rResponses => fillResponsesMap defs3 rResponses

/-- fillSpec from the Go source: definitions first, then endpoints; either
block may be absent. -/
def fillSpec (rSpec : List (String × Value)) : Except PErr Spec :=
  match extractStringMap rSpec "definitions" with
  | .error e => .error e
  | .ok oDefinitions =>
      match (match oDefinitions with
             | none => .ok emptyDefinitions
             | some rDefs => fillDefinitions emptyDefinitions rDefs : Except PErr Definitions) with
      | .error e => .error e
      | .ok defs =>
          match extractSliceOfAny rSpec "endpoints" with
          | .error e => .error e
          | .ok none => .ok { Defs := defs, Endpoints := [] }
          | .ok (some rEndpoints) =>
              match fillEndpoints defs rEndpoints with
              | .error e => .error e
              | .ok endpoints => .ok { Defs := defs, Endpoints := endpoints }

/-- Parse from the Go source, on an already-decoded document tree (the YAML
decoding itself is the external collaborator): the root must be a mapping. -/
def parseValue (v : Value) : Except PErr Spec :=
  match v with
  | .vmap rSpecMap => fillSpec rSpecMap
  | _ => .error (.invalidInput "spec must be an object")

/-! Helper lemmas about the extraction utilities. -/

theorem extractString_of_lookup_none {input : List (String × Value)} {n : String}
    (h : lookupVal input n = none) : extractString input n = .ok none := by
  unfold extractString
  rw [h]

theorem extractString_of_lookup_str {input : List (String × Value)} {n s : String}
    (h : lookupVal input n = some (.vstr s)) : extractString input n = .ok (some s) := by
  unfold extractString
  rw [h]

theorem extractSliceOfAny_of_lookup_none {input : List (String × Value)} {n : String}
    (h : lookupVal input n = none) : extractSliceOfAny input n = .ok none := by
  unfold extractSliceOfAny
  rw [h]

theorem extractSliceOfAny_of_lookup_arr {input : List (String × Value)} {n : String}
    {l : List Value} (h : lookupVal input n = some (.varr l)) :
    extractSliceOfAny input n = .ok (some l) := by
  unfold extractSliceOfAny
  rw [h]

theorem fillStringD_of_lookup_str {input : List (String × Value)} {n s : String}
    (c : String) (h : lookupVal input n = some (.vstr s)) :
    fillStringD input n c = .ok s := by
  unfold fillStringD
  rw [extractString_of_lookup_str h]

theorem extractSliceOfAny_of_lookup_not_arr {input : List (String × Value)} {n : String}
    {v : Value} (h : lookupVal input n = some v) (hv : ∀ l, v ≠ .varr l) :
    extractSliceOfAny input n =
      .error (.invalidInput ("expected " ++ n ++ " to be an array")) := by
  unfold extractSliceOfAny
  rw [h]
  cases v with
  | varr l => exact absurd rfl (hv l)
  | vnull => rfl
  | vbool b => rfl
  | vstr s => rfl
  | vint i => rfl
  | vmap m => rfl

/-! Shape-resolution lemmas for the condition builder: one lemma per branch
of the precedence chain, each conditioned only on the probes the source code
performs before committing to that branch. -/

theorem createConditions_ref {defs : Definitions} {item : List (String × Value)}
    {r : String} (h : lookupVal item "$ref" = some (.vstr r)) :
    createConditions defs item = getConditionsByReference defs r := by
  conv_lhs => rw [createConditions]
  rw [extractString_of_lookup_str h]

theorem createConditions_anyBranch {defs : Definitions} {item : List (String × Value)}
    {la : List Value} (h0 : lookupVal item "$ref" = none)
    (h1 : lookupVal item "any" = some (.varr la)) :
    createConditions defs item =
      match fillConditionsItems defs la with
      | .error e => .error e
      | .ok cs => .ok [Condition.mk cs [] "" []] := by
  conv_lhs => rw [createConditions]
  rw [extractString_of_lookup_none h0]
  simp only []
  split
  · rename_i e heq
    rw [extractSliceOfAny_of_lookup_arr h1] at heq
    cases heq
  · rename_i sliceAny heq
    rw [extractSliceOfAny_of_lookup_arr h1] at heq
    cases heq
    rfl
  · rename_i heq
    rw [extractSliceOfAny_of_lookup_arr h1] at heq
    cases heq

theorem createConditions_allBranch {defs : Definitions} {item : List (String × Value)}
    {lb : List Value} (h0 : lookupVal item "$ref" = none)
    (h1 : lookupVal item "any" = none) (h2 : lookupVal item "all" = some (.varr lb)) :
    createConditions defs item =
      match fillConditionsItems defs lb with
      | .error e => .error e
      | .ok cs => .ok [Condition.mk [] cs "" []] := by
  conv_lhs => rw [createConditions]
  rw [extractString_of_lookup_none h0]
  simp only []
  split
  · rename_i e heq
    rw [extractSliceOfAny_of_lookup_none h1] at heq
    cases heq
  · rename_i sliceAny heq
    rw [extractSliceOfAny_of_lookup_none h1] at heq
    cases heq
  · rename_i heq
    split
    · rename_i e heq2
      rw [extractSliceOfAny_of_lookup_arr h2] at heq2
      cases heq2
    · rename_i sliceAll heq2
      rw [extractSliceOfAny_of_lookup_arr h2] at heq2
      cases heq2
      rfl
    · rename_i heq2
      rw [extractSliceOfAny_of_lookup_arr h2] at heq2
      cases heq2

theorem createConditions_sourceBranch {defs : Definitions} {item : List (String × Value)}
    (h0 : lookupVal item "$ref" = none) (h1 : lookupVal item "any" = none)
    (h2 : lookupVal item "all" = none) :
    createConditions defs item =
      (match fillStringD item "source" "" with
       | .error e => .error e
       | .ok source =>
           if source = "" then .error (.invalidInput "condition must have a source")
           else
             match extractSliceOfAny item "checks" with
             | .error e => .error e
             | .ok none => .error (.invalidInput "checks must be an array")
             | .ok (some rChecks) =>
                 match createChecks rChecks with
                 | .error e => .error e
                 | .ok checks => .ok [Condition.mk [] [] source checks]) := by
  conv_lhs => rw [createConditions]
  rw [extractString_of_lookup_none h0]
  simp only []
  split
  · rename_i e heq
    rw [extractSliceOfAny_of_lookup_none h1] at heq
    cases heq
  · rename_i sliceAny heq
    rw [extractSliceOfAny_of_lookup_none h1] at heq
    cases heq
  · rename_i heq
    split
    · rename_i e heq2
      rw [extractSliceOfAny_of_lookup_none h2] at heq2
      cases heq2
    · rename_i sliceAll heq2
      rw [extractSliceOfAny_of_lookup_none h2] at heq2
      cases heq2
    · rename_i heq2
      rfl

/-! Unfolding lemmas for the endpoint builder. -/

theorem createEndpoint_eq_of_core {defs : Definitions} {entries : List (String × Value)}
    {ep : Endpoint} (h : createEndpointCore defs entries = .ok ep) :
    createEndpoint defs entries =
      if ep.Endpoints.isEmpty && ep.Response.isNone then
        .error (.invalidInput "endpoint must have either sub-endpoints or a response")
      else .ok ep := by
  conv_lhs => rw [createEndpoint]
  rw [h]

theorem createEndpoint_eq_of_core_err {defs : Definitions} {entries : List (String × Value)}
    {e : PErr} (h : createEndpointCore defs entries = .error e) :
    createEndpoint defs entries = .error e := by
  conv_lhs => rw [createEndpoint]
  rw [h]

theorem createEndpointCore_err_filters {defs : Definitions} {entries : List (String × Value)}
    {strs : String × String × String × String × String} {e : PErr}
    (hstr : endpointStringFields entries = .ok strs)
    (hfil : endpointFiltersStage defs entries = .error e) :
    createEndpointCore defs entries = .error e := by
  obtain ⟨d1, h1, m1, p1, b1⟩ := strs
  conv_lhs => rw [createEndpointCore]
  rw [hstr]
  simp only []
  rw [hfil]

theorem createEndpointCore_err_conditions {defs : Definitions} {entries : List (String × Value)}
    {strs : String × String × String × String × String} {fl : List Filter} {e : PErr}
    (hstr : endpointStringFields entries = .ok strs)
    (hfil : endpointFiltersStage defs entries = .ok fl)
    (hcond : endpointConditionsStage defs entries = .error e) :
    createEndpointCore defs entries = .error e := by
  obtain ⟨d1, h1, m1, p1, b1⟩ := strs
  conv_lhs => rw [createEndpointCore]
  rw [hstr]
  simp only []
  rw [hfil]
  simp only []
  rw [hcond]

/-! Machinery for the iteration-order analysis of the steps registry
(fillStepsMap).  A Go map is an association list up to permutation of its
entries; the entries of the steps namespace are processed in iteration order
and each build may consult the registry entries inserted so far, which is
what makes sibling references order-sensitive.  When no step item is a $ref,
each entry builds independently of the registry, and the resulting registry
is the same lookup function whatever the iteration order. -/

/-- A step item that is not a reference (no $ref key, or not a mapping). -/
def noRefStepItem : Value → Bool
  | .vmap m => (lookupVal m "$ref").isNone
  | _ => true

/-- A steps namespace none of whose items is a reference. -/
def noRefStepsNS (l : List (String × Value)) : Bool :=
  l.all fun p =>
    match p.2 with
    | .varr items => items.all noRefStepItem
    | _ => true

/-- Success test for an Except value. -/
def exceptIsOk {ε α : Type} : Except ε α → Bool
  | .ok _ => true
  | .error _ => false

/-- One entry of the steps namespace built in isolation (with the empty
registry; this agrees with the real build whenever the entry has no $ref). -/
def buildStepsEntry (e : String × Value) : Except PErr (String × List Step) :=
  match e.2 with
  | .varr items =>
      match fillStepsItems emptyDefinitions items with
      | .error er => .error er
      | .ok sl => .ok (e.1, sl)
  | _ =>
      .error (.invalidInput
        ("each step must be an array if step items (" ++ e.1 ++ " is not)"))

/-- All entries of the steps namespace built in isolation, in order. -/
def traverseSteps : List (String × Value) → Except PErr (List (String × List Step))
  | [] => .ok []
  | e :: rest =>
      match buildStepsEntry e with
      | .error er => .error er
      | .ok r =>
          match traverseSteps rest with
          | .error er => .error er
          | .ok rs => .ok (r :: rs)

/-- The value of an isolated entry build, defaulting on failure. -/
def stepEntryVal (e : String × Value) : String × List Step :=
  match buildStepsEntry e with
  | .ok r => r
  | .error _ => (e.1, [])

theorem createSteps_indep_of_noRef {m : List (String × Value)}
    (h : lookupVal m "$ref" = none) (defs defs' : Definitions) :
    createSteps defs m = createSteps defs' m := by
  unfold createSteps
  rw [extractString_of_lookup_none h]

theorem stepItemsLoop_indep_of_noRef {items : List Value}
    (h : items.all noRefStepItem = true) (defs : Definitions) :
    stepItemsLoop defs items = stepItemsLoop emptyDefinitions items := by
  induction items with
  | nil => rfl
  | cons x rest ih =>
      simp only [List.all_cons, Bool.and_eq_true] at h
      obtain ⟨hx, hrest⟩ := h
      cases x with
      | vmap m =>
          simp [noRefStepItem, Option.isNone_iff_eq_none] at hx
          simp only [stepItemsLoop]
          rw [createSteps_indep_of_noRef hx defs emptyDefinitions, ih hrest]
      | vnull => rfl
      | vbool b => rfl
      | vstr s => rfl
      | vint i => rfl
      | varr l => rfl

theorem fillStepsItems_indep_of_noRef {items : List Value}
    (h : items.all noRefStepItem = true) (defs : Definitions) :
    fillStepsItems defs items = fillStepsItems emptyDefinitions items := by
  unfold fillStepsItems
  rw [stepItemsLoop_indep_of_noRef h]

/-- Under a reference-free steps namespace, fillStepsMap is the isolated
builds folded in order, consed onto the incoming registry in reverse. -/
theorem fillStepsMap_eq_traverse {l : List (String × Value)}
    (h : noRefStepsNS l = true) (defs : Definitions) :
    fillStepsMap defs l =
      match traverseSteps l with
      | .error e => .error e
      | .ok es => .ok { defs with Steps := es.reverse ++ defs.Steps } := by
  induction l generalizing defs with
  | nil => rfl
  | cons e rest ih =>
      obtain ⟨n, v⟩ := e
      unfold noRefStepsNS at h
      simp [List.all_cons] at h
      obtain ⟨hv, hrest⟩ := h
      have hrest' : noRefStepsNS rest = true := by
        unfold noRefStepsNS
        simp [List.all_eq_true]
        intro a b hab
        exact hrest a b hab
      cases v with
      | varr items =>
          simp only [fillStepsMap, traverseSteps, buildStepsEntry]
          rw [fillStepsItems_indep_of_noRef (by simpa using hv) defs]
          cases hfi : fillStepsItems emptyDefinitions items with
          | error er => simp
          | ok sl =>
              simp only []
              rw [ih hrest']
              cases ht : traverseSteps rest with
              | error er => simp
              | ok rs => simp [List.append_assoc]
      | vnull => rfl
      | vbool b => rfl
      | vstr s => rfl
      | vint i => rfl
      | vmap m => rfl

theorem exceptIsOk_iff_ok {ε α : Type} {x : Except ε α} :
    exceptIsOk x = true ↔ ∃ a, x = .ok a := by
  cases x with
  | ok a => simp [exceptIsOk]
  | error e => simp [exceptIsOk]

theorem traverseSteps_isOk_iff {l : List (String × Value)} :
    exceptIsOk (traverseSteps l) = true ↔
      ∀ e ∈ l, exceptIsOk (buildStepsEntry e) = true := by
  induction l with
  | nil => simp [traverseSteps, exceptIsOk]
  | cons e rest ih =>
      simp only [traverseSteps]
      cases hb : buildStepsEntry e with
      | error er =>
          simp only [exceptIsOk]
          constructor
          · intro hfalse; cases hfalse
          · intro hall
            have := hall e (List.mem_cons_self e rest)
            rw [hb] at this
            cases this
      | ok r =>
          cases ht : traverseSteps rest with
          | error er =>
              rw [ht] at ih
              simp only [exceptIsOk] at ih ⊢
              constructor
              · intro hfalse; cases hfalse
              · intro hall
                have hrest : ∀ x ∈ rest, exceptIsOk (buildStepsEntry x) = true :=
                  fun x hx => hall x (List.mem_cons_of_mem e hx)
                cases ih.mpr hrest
          | ok rs =>
              rw [ht] at ih
              simp only [exceptIsOk] at ih ⊢
              constructor
              · intro _ x hx
                rcases List.mem_cons.mp hx with h1 | h2
                · subst h1; rw [hb]
                · exact ih.mp trivial x h2
              · intro _; trivial

theorem traverseSteps_ok_map {l : List (String × Value)}
    {es : List (String × List Step)} (h : traverseSteps l = .ok es) :
    es = l.map stepEntryVal := by
  induction l generalizing es with
  | nil => simp [traverseSteps] at h; simp [h]
  | cons e rest ih =>
      simp only [traverseSteps] at h
      cases hb : buildStepsEntry e with
      | error er => rw [hb] at h; simp at h
      | ok r =>
          rw [hb] at h
          cases ht : traverseSteps rest with
          | error er => rw [ht] at h; simp at h
          | ok rs =>
              rw [ht] at h
              simp at h
              subst h
              simp [List.map_cons, stepEntryVal, hb, ih ht]

theorem buildStepsEntry_fst {e : String × Value} {r : String × List Step}
    (h : buildStepsEntry e = .ok r) : r.1 = e.1 := by
  obtain ⟨n, v⟩ := e
  cases v with
  | varr items =>
      simp only [buildStepsEntry] at h
      cases hfi : fillStepsItems emptyDefinitions items with
      | error er => rw [hfi] at h; simp at h
      | ok sl => rw [hfi] at h; simp at h; rw [← h]
  | vnull => simp [buildStepsEntry] at h
  | vbool b => simp [buildStepsEntry] at h
  | vstr s => simp [buildStepsEntry] at h
  | vint i => simp [buildStepsEntry] at h
  | vmap m => simp [buildStepsEntry] at h

theorem traverseSteps_ok_keys {l : List (String × Value)}
    {es : List (String × List Step)} (h : traverseSteps l = .ok es) :
    es.map Prod.fst = l.map Prod.fst := by
  induction l generalizing es with
  | nil => simp [traverseSteps] at h; simp [h]
  | cons e rest ih =>
      simp only [traverseSteps] at h
      cases hb : buildStepsEntry e with
      | error er => rw [hb] at h; simp at h
      | ok r =>
          rw [hb] at h
          cases ht : traverseSteps rest with
          | error er => rw [ht] at h; simp at h
          | ok rs =>
              rw [ht] at h
              simp at h
              subst h
              simp [buildStepsEntry_fst hb, ih ht]

theorem lookupA_append {α : Type} (a b : List (String × α)) (n : String) :
    lookupA (a ++ b) n =
      match lookupA a n with
      | some v => some v
      | none => lookupA b n := by
  induction a with
  | nil => simp [lookupA]
  | cons x rest ih =>
      obtain ⟨k, v⟩ := x
      by_cases hk : k = n
      · simp [lookupA, hk]
      · simp [lookupA, hk, ih]

theorem lookupA_perm {α : Type} {l1 l2 : List (String × α)} (h : l1.Perm l2)
    (hn : (l1.map Prod.fst).Nodup) (n : String) : lookupA l1 n = lookupA l2 n := by
  induction h with
  | nil => rfl
  | cons x p ih =>
      simp [List.map_cons, List.nodup_cons] at hn
      obtain ⟨k, v⟩ := x
      by_cases hk : k = n
      · simp [lookupA, hk]
      · simp [lookupA, hk]
        exact ih hn.2
  | swap x y l =>
      obtain ⟨kx, vx⟩ := x
      obtain ⟨ky, vy⟩ := y
      simp [List.map_cons, List.nodup_cons] at hn
      by_cases hky : ky = n
      · by_cases hkx : kx = n
        · exact absurd (hky.trans hkx.symm) hn.1.1
        · simp [lookupA, hky, hkx]
      · simp [lookupA, hky]
  | trans p1 p2 ih1 ih2 =>
      have hn2 : (_ : List (String × α)).map Prod.fst |>.Nodup := (p1.map Prod.fst).nodup_iff.mp hn
      exact (ih1 hn).trans (ih2 hn2)

/-- C8 (amended): Parse is not deterministic in general — the steps registry
build depends on the unspecified Go map iteration order when a definition
references a sibling of the same namespace (see the counterexample) — but for
a steps namespace with distinct names none of whose items is a $ref, the
result is independent of iteration order: any two orders succeed or fail
together, and on success the built registries are structurally equal modulo
map key ordering, that is, equal as lookup functions, with the other three
namespaces untouched. -/
theorem fillStepsMap_order_indep (defs : Definitions) (l1 l2 : List (String × Value))
    (hperm : l1.Perm l2) (hnodup : (l1.map Prod.fst).Nodup)
    (hnoref : noRefStepsNS l1 = true) :
    (exceptIsOk (fillStepsMap defs l1) = exceptIsOk (fillStepsMap defs l2)) ∧
    (∀ d1 d2, fillStepsMap defs l1 = .ok d1 → fillStepsMap defs l2 = .ok d2 →
      (∀ n, lookupA d1.Steps n = lookupA d2.Steps n) ∧
      d1.Filters = d2.Filters ∧ d1.Conditions = d2.Conditions ∧
      d1.Responses = d2.Responses) := by
  have hnoref2 : noRefStepsNS l2 = true := by
    unfold noRefStepsNS at hnoref ⊢
    rw [List.all_eq_true] at hnoref ⊢
    intro x hx
    exact hnoref x (hperm.mem_iff.mpr hx)
  rw [fillStepsMap_eq_traverse hnoref defs, fillStepsMap_eq_traverse hnoref2 defs]
  have hiff : exceptIsOk (traverseSteps l1) = true ↔
      exceptIsOk (traverseSteps l2) = true := by
    rw [traverseSteps_isOk_iff, traverseSteps_isOk_iff]
    constructor
    · intro h x hx; exact h x (hperm.mem_iff.mpr hx)
    · intro h x hx; exact h x (hperm.mem_iff.mp hx)
  constructor
  · cases ht1 : traverseSteps l1 with
    | ok es1 =>
        cases ht2 : traverseSteps l2 with
        | ok es2 => simp [exceptIsOk]
        | error er =>
            rw [ht1, ht2] at hiff
            simp [exceptIsOk] at hiff
    | error er =>
        cases ht2 : traverseSteps l2 with
        | ok es2 =>
            rw [ht1, ht2] at hiff
            simp [exceptIsOk] at hiff
        | error er2 => simp [exceptIsOk]
  · intro d1 d2 h1 h2
    cases ht1 : traverseSteps l1 with
    | error er => rw [ht1] at h1; cases h1
    | ok es1 =>
        cases ht2 : traverseSteps l2 with
        | error er => rw [ht2] at h2; cases h2
        | ok es2 =>
            rw [ht1] at h1
            rw [ht2] at h2
            have hd1 : d1 = { defs with Steps := es1.reverse ++ defs.Steps } := by
              cases h1; rfl
            have hd2 : d2 = { defs with Steps := es2.reverse ++ defs.Steps } := by
              cases h2; rfl
            subst hd1
            subst hd2
            have hmap1 := traverseSteps_ok_map ht1
            have hmap2 := traverseSteps_ok_map ht2
            have hesperm : es1.Perm es2 := by
              rw [hmap1, hmap2]
              exact hperm.map stepEntryVal
            have hkeys1 : es1.map Prod.fst = l1.map Prod.fst := traverseSteps_ok_keys ht1
            have hnodup1 : (es1.map Prod.fst).Nodup := by rw [hkeys1]; exact hnodup
            have hnodup2 : (es2.map Prod.fst).Nodup :=
              ((hesperm.map Prod.fst).nodup_iff).mp hnodup1
            refine ⟨?_, rfl, rfl, rfl⟩
            intro n
            simp only []
            rw [lookupA_append, lookupA_append]
            have e1 : lookupA es1.reverse n = lookupA es1 n :=
              lookupA_perm (List.reverse_perm es1) (by
                rw [List.map_reverse]
                exact List.nodup_reverse.mpr hnodup1) n
            have e2 : lookupA es1 n = lookupA es2 n := lookupA_perm hesperm hnodup1 n
            have e3 : lookupA es2 n = lookupA es2.reverse n :=
              lookupA_perm (List.reverse_perm es2).symm hnodup2 n
            rw [e1, e2, e3]

/-! The claims. -/

/-- C1 (code-bug evidence): the Go code builds the local headers map in
createResponse but never assigns it to the Response, so for a valid document
whose response mapping carries a headers field, the parsed Response has an
empty (zero-value) Headers field instead of the input headers, both at the
response-builder level and through Parse. -/
theorem c1_parse_drops_headers :
    createResponse
        [("status", .vint 200),
         ("headers", .vmap [("X-Token", .varr [.vstr "a", .vstr "b"])])]
        emptyDefinitions =
      .ok { Status := 200, Format := "", Headers := [], Body := "" } ∧
    parseValue
        (.vmap [("definitions", .vmap [("responses", .vmap [("r",
          .vmap [("status", .vint 200),
                 ("headers", .vmap [("X-Token", .varr [.vstr "a", .vstr "b"])])])])])]) =
      .ok { Defs := { Steps := [], Filters := [], Conditions := [],
                      Responses := [("r",
                        { Status := 200, Format := "", Headers := [], Body := "" })] },
            Endpoints := [] } :=
  ⟨rfl, rfl⟩

/-- C2 (code-bug evidence): a response headers sequence containing a
non-string element does not produce a TypeMismatch-class error value — the
unchecked Go type assertion panics, modelled by the distinguished panicked
outcome, which also propagates through Parse. -/
theorem c2_header_nonstring_panics :
    createResponse [("headers", .vmap [("X", .varr [.vint 1])])] emptyDefinitions =
      .error (.panicked "interface conversion: interface is not string") ∧
    parseValue
        (.vmap [("definitions", .vmap [("responses", .vmap [("r",
          .vmap [("headers", .vmap [("X", .varr [.vint 1])])])])])]) =
      .error (.panicked "interface conversion: interface is not string") :=
  ⟨rfl, rfl⟩

/-- C3 (counterexample): a condition mapping with a non-empty source and a
present-but-empty checks sequence is accepted by the condition builder — it
yields a condition with no checks — rather than failing with a
MissingRequiredField-class error as claimed. -/
theorem c3_empty_checks_accepted_cex :
    createConditions emptyDefinitions [("source", .vstr "role"), ("checks", .varr [])] =
      .ok [Condition.mk [] [] "role" []] := by
  rw [@createConditions_sourceBranch emptyDefinitions
    [("source", .vstr "role"), ("checks", .varr [])] rfl rfl rfl]
  rfl

/-- C3 (amended): for a condition mapping with no $ref, any or all key and a
non-empty source string: a checks field present as an empty sequence is
accepted, yielding a condition carrying that source and no checks; an absent
checks field fails with the checks-must-be-an-array error (not an
at-least-one-item error); and a checks field present but not a sequence
fails with the expected-checks-to-be-an-array extraction error. -/
theorem c3_empty_checks_amended (defs : Definitions) (item : List (String × Value))
    (s : String) (h0 : lookupVal item "$ref" = none) (h1 : lookupVal item "any" = none)
    (h2 : lookupVal item "all" = none) (hsrc : lookupVal item "source" = some (.vstr s))
    (hne : s ≠ "") :
    (lookupVal item "checks" = some (.varr []) →
      createConditions defs item = .ok [Condition.mk [] [] s []]) ∧
    (lookupVal item "checks" = none →
      createConditions defs item = .error (.invalidInput "checks must be an array")) ∧
    (∀ v, lookupVal item "checks" = some v → (∀ l, v ≠ .varr l) →
      createConditions defs item =
        .error (.invalidInput "expected checks to be an array")) := by
  refine ⟨?_, ?_, ?_⟩
  · intro hchecks
    rw [createConditions_sourceBranch h0 h1 h2, fillStringD_of_lookup_str "" hsrc]
    simp only []
    rw [if_neg hne, extractSliceOfAny_of_lookup_arr hchecks]
    rfl
  · intro habs
    rw [createConditions_sourceBranch h0 h1 h2, fillStringD_of_lookup_str "" hsrc]
    simp only []
    rw [if_neg hne, extractSliceOfAny_of_lookup_none habs]
  · intro v hchecks hv
    rw [createConditions_sourceBranch h0 h1 h2, fillStringD_of_lookup_str "" hsrc]
    simp only []
    rw [if_neg hne, extractSliceOfAny_of_lookup_not_arr hchecks hv]
    rfl

/-- C3 (witness): the same source with checks present-and-empty (accepted),
checks absent (checks-must-be-an-array error), and checks present but not a
sequence (extraction error). -/
theorem c3_empty_checks_amended_witness :
    createConditions emptyDefinitions [("source", .vstr "s2"), ("checks", .varr [])] =
      .ok [Condition.mk [] [] "s2" []] ∧
    createConditions emptyDefinitions [("source", .vstr "s2")] =
      .error (.invalidInput "checks must be an array") ∧
    createConditions emptyDefinitions [("source", .vstr "s2"), ("checks", .vint 3)] =
      .error (.invalidInput "expected checks to be an array") :=
  ⟨(c3_empty_checks_amended emptyDefinitions
      [("source", .vstr "s2"), ("checks", .varr [])] "s2"
      rfl rfl rfl rfl (by decide)).1 rfl,
   (c3_empty_checks_amended emptyDefinitions
      [("source", .vstr "s2")] "s2"
      rfl rfl rfl rfl (by decide)).2.1 rfl,
   (c3_empty_checks_amended emptyDefinitions
      [("source", .vstr "s2"), ("checks", .vint 3)] "s2"
      rfl rfl rfl rfl (by decide)).2.2 (.vint 3) rfl
      (fun l h => Value.noConfusion h)⟩

/-- C4 (counterexample): a general step item mapping with more than one key
IS rejected by a key-count check inside the step builder itself, with the
same single-key error the check builder uses, refuting the claim that only
the check builder rejects by key count. -/
theorem c4_multikey_step_rejected_cex :
    createSteps emptyDefinitions [("a", .vnull), ("b", .vnull)] =
      .error .objectMustHaveSingleKey :=
  rfl

/-- C4 (amended): both builders enforce single-key mappings: the step builder
rejects any step item mapping with more than one key, and the check builder
rejects any check item mapping whose key count differs from one, each with
the object-must-have-single-key error (the remaining asymmetry is only that
a zero-key step item is accepted while a zero-key check item is not). -/
theorem c4_single_key_amended (defs : Definitions) (m mc : List (String × Value))
    (rest : List Value) :
    (m.length > 1 → createSteps defs m = .error .objectMustHaveSingleKey) ∧
    (mc.length ≠ 1 → createChecks (.vmap mc :: rest) = .error .objectMustHaveSingleKey) := by
  constructor
  · intro h
    unfold createSteps
    rw [if_pos h]
  · intro h
    unfold createChecks
    rw [if_pos h]

/-- C4 (witness). -/
theorem c4_single_key_amended_witness :
    createSteps emptyDefinitions [("x", .vnull), ("y", .vnull)] =
      .error .objectMustHaveSingleKey ∧
    createChecks [.vmap []] = .error .objectMustHaveSingleKey :=
  ⟨(c4_single_key_amended emptyDefinitions [("x", .vnull), ("y", .vnull)] [] []).1
      (by decide),
   (c4_single_key_amended emptyDefinitions [("x", .vnull), ("y", .vnull)] [] []).2
      (by decide)⟩

/-- C5: condition shape resolution follows the fixed precedence $ref, then
any, then all, then source plus checks, first match wins: with $ref present
the registry decides regardless of other keys; with no $ref and an any
sequence present, the result is computed from the any items alone (so a
mapping with both any and all builds as an Any condition with an empty All);
with neither, an all sequence decides; otherwise the source-plus-checks
grammar applies. -/
theorem c5_condition_precedence (defs : Definitions) (item : List (String × Value)) :
    (∀ r, lookupVal item "$ref" = some (.vstr r) →
      createConditions defs item = getConditionsByReference defs r) ∧
    (∀ la, lookupVal item "$ref" = none → lookupVal item "any" = some (.varr la) →
      createConditions defs item =
        match fillConditionsItems defs la with
        | .error e => .error e
        | .ok cs => .ok [Condition.mk cs [] "" []]) ∧
    (∀ lb, lookupVal item "$ref" = none → lookupVal item "any" = none →
      lookupVal item "all" = some (.varr lb) →
      createConditions defs item =
        match fillConditionsItems defs lb with
        | .error e => .error e
        | .ok cs => .ok [Condition.mk [] cs "" []]) ∧
    (lookupVal item "$ref" = none → lookupVal item "any" = none →
      lookupVal item "all" = none →
      createConditions defs item =
        match fillStringD item "source" "" with
        | .error e => .error e
        | .ok source =>
            if source = "" then .error (.invalidInput "condition must have a source")
            else
              match extractSliceOfAny item "checks" with
              | .error e => .error e
              | .ok none => .error (.invalidInput "checks must be an array")
              | .ok (some rChecks) =>
                  match createChecks rChecks with
                  | .error e => .error e
                  | .ok checks => .ok [Condition.mk [] [] source checks]) :=
  ⟨fun _ h => createConditions_ref h,
   fun _ h0 h1 => createConditions_anyBranch h0 h1,
   fun _ h0 h1 h2 => createConditions_allBranch h0 h1 h2,
   fun h0 h1 h2 => createConditions_sourceBranch h0 h1 h2⟩

/-- C5 (witness): a mapping carrying both any and all builds as an Any
condition with an empty All field, and a mapping carrying both $ref and any
resolves through the registry. -/
theorem c5_condition_precedence_witness :
    createConditions emptyDefinitions
        [("any", .varr [.vmap [("source", .vstr "s"),
            ("checks", .varr [.vmap [("eq", .vstr "x")]])]]),
         ("all", .varr [.vmap [("source", .vstr "t"),
            ("checks", .varr [.vmap [("eq", .vstr "y")]])]])] =
      .ok [Condition.mk
            [Condition.mk [] [] "s" [{ Name := "eq", Parameters := [("value", .vstr "x")] }]]
            [] "" []] ∧
    createConditions emptyDefinitions
        [("$ref", .vstr "n"), ("any", .varr [])] =
      .error (.unknownDefinition "conditions" "n") := by
  have hc : createConditions emptyDefinitions
      [("source", .vstr "s"), ("checks", .varr [.vmap [("eq", .vstr "x")]])] =
      .ok [Condition.mk [] [] "s" [{ Name := "eq", Parameters := [("value", .vstr "x")] }]] := by
    rw [@createConditions_sourceBranch emptyDefinitions
      [("source", .vstr "s"), ("checks", .varr [.vmap [("eq", .vstr "x")]])] rfl rfl rfl]
    rfl
  have hitems : fillConditionsItems emptyDefinitions
      [.vmap [("source", .vstr "s"), ("checks", .varr [.vmap [("eq", .vstr "x")]])]] =
      .ok [Condition.mk [] [] "s" [{ Name := "eq", Parameters := [("value", .vstr "x")] }]] := by
    simp [fillConditionsItems, conditionItemsLoop, hc]
  constructor
  · have h := (c5_condition_precedence emptyDefinitions
      [("any", .varr [.vmap [("source", .vstr "s"),
          ("checks", .varr [.vmap [("eq", .vstr "x")]])]]),
       ("all", .varr [.vmap [("source", .vstr "t"),
          ("checks", .varr [.vmap [("eq", .vstr "y")]])]])]).2.1
      [.vmap [("source", .vstr "s"), ("checks", .varr [.vmap [("eq", .vstr "x")]])]]
      rfl rfl
    rw [h, hitems]
  · have h := (c5_condition_precedence emptyDefinitions
      [("$ref", .vstr "n"), ("any", .varr [])]).1 "n" rfl
    rw [h]
    rfl

/-- C6: reference resolution: a $ref node in each of the four entity builders
resolves to exactly the stored value for that name in the corresponding
registry namespace when present, and otherwise fails with the
unknown-definition error naming the namespace and the name, never panicking
and never yielding a zero entity. -/
theorem c6_ref_resolution (defs : Definitions) (refName : String) :
    createSteps defs [("$ref", .vstr refName)] =
      (match lookupA defs.Steps refName with
       | some v => .ok v
       | none => .error (.unknownDefinition "steps" refName)) ∧
    createFilters defs [("$ref", .vstr refName)] =
      (match lookupA defs.Filters refName with
       | some v => .ok v
       | none => .error (.unknownDefinition "filters" refName)) ∧
    createConditions defs [("$ref", .vstr refName)] =
      (match lookupA defs.Conditions refName with
       | some v => .ok v
       | none => .error (.unknownDefinition "conditions" refName)) ∧
    createResponse [("$ref", .vstr refName)] defs =
      (match lookupA defs.Responses refName with
       | some v => .ok v
       | none => .error (.unknownDefinition "responses" refName)) :=
  ⟨rfl, rfl,
   (@createConditions_ref defs [("$ref", .vstr refName)] refName rfl).trans rfl, rfl⟩

/-- C7: given that the body of the endpoint builder succeeds, the final
completeness check fails with the incomplete-endpoint error exactly when the
built endpoint has an empty sub-endpoint list and no response, and otherwise
the endpoint is returned as built. -/
theorem c7_incomplete_endpoint_iff (defs : Definitions)
    (entries : List (String × Value)) (ep : Endpoint)
    (hcore : createEndpointCore defs entries = .ok ep) :
    (createEndpoint defs entries =
        .error (.invalidInput "endpoint must have either sub-endpoints or a response") ↔
      (ep.Endpoints = [] ∧ ep.Response = none)) ∧
    (¬(ep.Endpoints = [] ∧ ep.Response = none) →
      createEndpoint defs entries = .ok ep) := by
  rw [createEndpoint_eq_of_core hcore]
  have hb : (ep.Endpoints.isEmpty && ep.Response.isNone) = true ↔
      (ep.Endpoints = [] ∧ ep.Response = none) := by
    rw [Bool.and_eq_true, List.isEmpty_iff, Option.isNone_iff_eq_none]
  by_cases hcond : ep.Endpoints = [] ∧ ep.Response = none
  · rw [if_pos (hb.mpr hcond)]
    exact ⟨⟨fun _ => hcond, fun _ => rfl⟩, fun hn => absurd hcond hn⟩
  · rw [if_neg (fun hbt => hcond (hb.mp hbt))]
    exact ⟨⟨fun habs => absurd habs (by simp), fun hc => absurd hc hcond⟩,
      fun _ => rfl⟩

/-- C7 (witness): an endpoint with an explicitly empty endpoints sequence and
no response fails with the incomplete-endpoint error, while an endpoint with
a response and no sub-endpoints succeeds. -/
theorem c7_incomplete_endpoint_witness :
    createEndpoint emptyDefinitions [("endpoints", .varr [])] =
      .error (.invalidInput "endpoint must have either sub-endpoints or a response") ∧
    createEndpoint emptyDefinitions [("response", .vmap [("status", .vint 200)])] =
      .ok (Endpoint.mk "" "" "" "" "" [] [] []
        (some { Status := 200, Format := "", Headers := [], Body := "" })) := by
  have hcore1 : createEndpointCore emptyDefinitions [("endpoints", .varr [])] =
      .ok (Endpoint.mk "" "" "" "" "" [] [] [] none) := by
    simp [createEndpointCore, endpointStringFields, fillStringD, extractString, lookupVal,
      endpointFiltersStage, endpointConditionsStage, endpointResponseStage,
      extractSliceOfAny, extractStringMap, fillEndpoints]
  have hcore2 : createEndpointCore emptyDefinitions
      [("response", .vmap [("status", .vint 200)])] =
      .ok (Endpoint.mk "" "" "" "" "" [] [] []
        (some { Status := 200, Format := "", Headers := [], Body := "" })) := by
    simp [createEndpointCore, endpointStringFields, fillStringD, extractString, lookupVal,
      endpointFiltersStage, endpointConditionsStage, endpointResponseStage,
      extractSliceOfAny, extractStringMap, fillResponseItem, createResponse, fillIntD,
      extractInt]
  exact ⟨(c7_incomplete_endpoint_iff emptyDefinitions _ _ hcore1).1.mpr ⟨rfl, rfl⟩,
    (c7_incomplete_endpoint_iff emptyDefinitions _ _ hcore2).2 (by simp [Endpoint.Response])⟩

/-- C9: in the endpoint builder, a filters or conditions field that is
present but an empty sequence fails with the corresponding at-least-one-item
error (assuming the earlier string-field stage succeeded, and for conditions
that the filters stage succeeded), whereas the same field being entirely
absent is accepted and simply yields no filters or conditions. -/
theorem c9_empty_vs_absent (defs : Definitions) (entries : List (String × Value))
    (strs : String × String × String × String × String)
    (hstr : endpointStringFields entries = .ok strs) :
    (lookupVal entries "filters" = some (.varr []) →
      createEndpoint defs entries =
        .error (.invalidInput "each filter must have at least one item")) ∧
    (∀ fl, endpointFiltersStage defs entries = .ok fl →
      lookupVal entries "conditions" = some (.varr []) →
      createEndpoint defs entries =
        .error (.invalidInput "each condition must have at least one item")) ∧
    (lookupVal entries "filters" = none → endpointFiltersStage defs entries = .ok []) ∧
    (lookupVal entries "conditions" = none →
      endpointConditionsStage defs entries = .ok []) := by
  refine ⟨?_, ?_, ?_, ?_⟩
  · intro hf
    have hfil : endpointFiltersStage defs entries =
        .error (.invalidInput "each filter must have at least one item") := by
      unfold endpointFiltersStage
      rw [extractSliceOfAny_of_lookup_arr hf]
      rfl
    exact createEndpoint_eq_of_core_err (createEndpointCore_err_filters hstr hfil)
  · intro fl hfl hc
    have hcond : endpointConditionsStage defs entries =
        .error (.invalidInput "each condition must have at least one item") := by
      unfold endpointConditionsStage
      rw [extractSliceOfAny_of_lookup_arr hc]
      simp [fillConditionsItems]
    exact createEndpoint_eq_of_core_err
      (createEndpointCore_err_conditions hstr hfl hcond)
  · intro hf
    unfold endpointFiltersStage
    rw [extractSliceOfAny_of_lookup_none hf]
  · intro hc
    unfold endpointConditionsStage
    rw [extractSliceOfAny_of_lookup_none hc]

/-- C9 (witness). -/
theorem c9_empty_vs_absent_witness :
    createEndpoint emptyDefinitions [("filters", .varr []), ("response", .vmap [])] =
      .error (.invalidInput "each filter must have at least one item") ∧
    createEndpoint emptyDefinitions [("conditions", .varr [])] =
      .error (.invalidInput "each condition must have at least one item") ∧
    endpointFiltersStage emptyDefinitions [("response", .vmap [])] = .ok [] := by
  refine ⟨?_, ?_, ?_⟩
  · exact (c9_empty_vs_absent emptyDefinitions
      [("filters", .varr []), ("response", .vmap [])] ("", "", "", "", "") rfl).1 rfl
  · exact (c9_empty_vs_absent emptyDefinitions
      [("conditions", .varr [])] ("", "", "", "", "") rfl).2.1 [] rfl rfl
  · exact (c9_empty_vs_absent emptyDefinitions
      [("response", .vmap [])] ("", "", "", "", "") rfl).2.2.1 rfl

/-- The Step values built from the concrete documents used to analyse
iteration-order dependence. -/
def opStep : Step := { Operation := "op", Parameters := [("value", .vnull)] }

/-- A second concrete Step value for the order-independence instance. -/
def op2Step : Step := { Operation := "op2", Parameters := [("value", .vint 1)] }

/-- C8 (counterexample): the same steps namespace — the same Go map, two
iteration orders that are permutations of each other — parses to an
unknown-definition failure in one order and to a fully built Spec in the
other, because a $ref to a sibling definition only resolves if the sibling
was inserted first; so Parse is not deterministic as claimed. -/
theorem c8_order_dependence_cex :
    ([(("a" : String), Value.varr [.vmap [("$ref", .vstr "b")]]),
      ("b", Value.varr [.vmap [("op", .vnull)]])]).Perm
      [("b", Value.varr [.vmap [("op", .vnull)]]),
       ("a", Value.varr [.vmap [("$ref", .vstr "b")]])] ∧
    parseValue (.vmap [("definitions", .vmap [("steps", .vmap
        [("a", .varr [.vmap [("$ref", .vstr "b")]]),
         ("b", .varr [.vmap [("op", .vnull)]])])])]) =
      .error (.unknownDefinition "steps" "b") ∧
    parseValue (.vmap [("definitions", .vmap [("steps", .vmap
        [("b", .varr [.vmap [("op", .vnull)]]),
         ("a", .varr [.vmap [("$ref", .vstr "b")]])])])]) =
      .ok { Defs := { Steps := [("a", [opStep]), ("b", [opStep])],
                      Filters := [], Conditions := [], Responses := [] },
            Endpoints := [] } :=
  ⟨List.Perm.swap _ _ [], rfl, rfl⟩

/-- C8 (witness). -/
theorem c8_order_indep_witness :
    exceptIsOk (fillStepsMap emptyDefinitions
        [("a", .varr [.vmap [("op", .vnull)]]), ("b", .varr [.vmap [("op2", .vint 1)]])]) =
      exceptIsOk (fillStepsMap emptyDefinitions
        [("b", .varr [.vmap [("op2", .vint 1)]]), ("a", .varr [.vmap [("op", .vnull)]])]) ∧
    lookupA ({ Steps := [("b", [op2Step]), ("a", [opStep])],
               Filters := [], Conditions := [], Responses := [] } : Definitions).Steps "a" =
      lookupA ({ Steps := [("a", [opStep]), ("b", [op2Step])],
                 Filters := [], Conditions := [], Responses := [] } : Definitions).Steps "a" := by
  have h := fillStepsMap_order_indep emptyDefinitions
    [("a", .varr [.vmap [("op", .vnull)]]), ("b", .varr [.vmap [("op2", .vint 1)]])]
    [("b", .varr [.vmap [("op2", .vint 1)]]), ("a", .varr [.vmap [("op", .vnull)]])]
    (List.Perm.swap _ _ []) (by simp) (by decide)
  exact ⟨h.1, (h.2 _ _ rfl rfl).1 "a"⟩

/-- C10: an empty step item mapping (zero keys) is accepted by the step
builder and yields zero steps, so a steps definition whose single item is an
empty mapping produces an empty step list for that name rather than an
error. -/
theorem c10_empty_step_item (defs : Definitions) (name : String) :
    createSteps defs [] = .ok [] ∧
    fillStepsItems defs [.vmap []] = .ok [] ∧
    fillStepsMap defs [(name, .varr [.vmap []])] =
      .ok { defs with Steps := (name, []) :: defs.Steps } :=
  ⟨rfl, rfl, rfl⟩

end MSParser
